import Mathlib

/-!
# Verification of the PDF purchase-order extractor

A shallow embedding of the text-processing core of this repository
(`src/pdf_extractor_final.py` and the segmenting / header code of `src/app.py`)
together with theorems settling the specification claims.

Python strings are modelled as `List Char` (with `String` wrappers at the
interfaces).  Each regular expression of the source is translated into a
bespoke total matcher that follows Python `re` semantics (leftmost match for
`re.search`, anchored-at-start match for `re.match`, greedy/lazy backtracking
as it plays out for the concrete pattern).  Character classes are modelled at
ASCII granularity, which covers every character the extractor's patterns and
inputs exercise.
-/

namespace GB

/-! ## Character classes (Python `str`/`re` semantics, ASCII fragment) -/

/-- Python whitespace as matched by `\s` and `str.split()` / `str.strip()`. -/
def isPyWs (c : Char) : Bool :=
  c == ' ' || c == '\t' || c == '\n' || c == '\r' || c == '\u000b' || c == '\u000c'

/-- `\w` (word character), ASCII fragment: letters, digits, underscore. -/
def isWordC (c : Char) : Bool := c.isAlpha || c.isDigit || c == '_'

/-- `[A-Z0-9]`. -/
def isUpperDigit (c : Char) : Bool := c.isUpper || c.isDigit

/-- `[\d.]`. -/
def isDigitDot (c : Char) : Bool := c.isDigit || c == '.'

/-! ## List/string primitives -/

/-- `pat` is an initial segment of `l` (used for literal and anchored matches). -/
def startsL : List Char → List Char → Bool
  | [], _ => true
  | _ :: _, [] => false
  | p :: ps, c :: cs => p == c && startsL ps cs

/-- Python's `pat in s` substring test. -/
def hasSub (pat : List Char) : List Char → Bool
  | [] => startsL pat []
  | c :: cs => startsL pat (c :: cs) || hasSub pat cs

/-- Python `str.split()` with no argument: split on runs of whitespace,
dropping empty pieces. -/
def splitWs (l : List Char) : List (List Char) :=
  let p := l.foldr
    (fun c acc =>
      if isPyWs c then ([], if acc.1.isEmpty then acc.2 else acc.1 :: acc.2)
      else (c :: acc.1, acc.2))
    ([], [])
  if p.1.isEmpty then p.2 else p.1 :: p.2

/-- Python `str.split('.')`: split on every dot, keeping empty pieces. -/
def splitOnDot (l : List Char) : List (List Char) :=
  l.foldr
    (fun c acc =>
      if c == '.' then [] :: acc
      else match acc with
        | h :: t => (c :: h) :: t
        | [] => [[c]])
    [[]]

/-- Python `str.strip()`. -/
def pyStrip (l : List Char) : List Char :=
  ((l.dropWhile isPyWs).reverse.dropWhile isPyWs).reverse

/-- Python `str.upper()` (ASCII fragment, which is all the extractor feeds it). -/
def pyUpper (l : List Char) : List Char := l.map Char.toUpper

/-- Python `str.lower()` (ASCII fragment). -/
def pyLower (l : List Char) : List Char := l.map Char.toLower

/-! ## Numbers: `int(...)`, `float(...)` and `f"{x:.2f}"` -/

def digitVal (c : Char) : Nat := c.toNat - '0'.toNat

/-- Value of a digit string (Python `int` on an all-digit string). -/
def natOfDigits (l : List Char) : Nat := l.foldl (fun a c => a * 10 + digitVal c) 0

/-- An exact decimal value `mant / 10 ^ frac`, the result of parsing a
decimal literal.  (The doubles the source manipulates carry such short
decimal values; all formatting the source performs on them agrees with
exact decimal arithmetic.) -/
structure Dec where
  mant : Int
  frac : Nat
deriving Repr, DecidableEq

/-- Python `float(s)` for the grammar fragment the extractor can feed it:
an optional sign followed by `digits`, `digits.digits`, `digits.` or
`.digits`.  Exponent forms, `inf`/`nan`, underscores and surrounding
whitespace never occur here (every argument in the source is drawn from a
`[\d.]`-restricted regex group), so they are modelled as non-numeric.
`none` models `ValueError`. -/
def pyFloat (l : List Char) : Option Dec :=
  let sl : Int × List Char :=
    match l with
    | '+' :: r => (1, r)
    | '-' :: r => (-1, r)
    | _ => (1, l)
  let ip := sl.2.takeWhile Char.isDigit
  let r1 := sl.2.dropWhile Char.isDigit
  match r1 with
  | [] => if ip.isEmpty then none else some ⟨sl.1 * (natOfDigits ip : Int), 0⟩
  | '.' :: fp0 =>
      let fp := fp0.takeWhile Char.isDigit
      if !(fp0.dropWhile Char.isDigit).isEmpty then none
      else if ip.isEmpty && fp.isEmpty then none
      else some ⟨sl.1 * ((natOfDigits ip * 10 ^ fp.length + natOfDigits fp : Nat) : Int), fp.length⟩
  | _ => none

/-- Two-digit zero-padded decimal. -/
def pad2 (n : Nat) : String := if n < 10 then "0" ++ toString n else toString n

/-- Python `f"{x:.2f}"` for the non-negative values arising here: round the
value to two decimals (ties to even, matching how the doubles carrying these
short decimal values round) and print with exactly two fractional digits. -/
def fmt2 (q : Dec) : List Char :=
  let N : Int := q.mant * 100
  let D : Int := (10 : Int) ^ q.frac
  let f : Int := Int.fdiv N D
  let rem : Int := N - f * D
  let n : Int := if 2 * rem < D then f else if D < 2 * rem then f + 1 else if f % 2 = 0 then f else f + 1
  let nn : Nat := n.toNat
  (toString (nn / 100) ++ "." ++ pad2 (nn % 100)).data

/-! ## `extract_size_value` (src/pdf_extractor_final.py lines 272–292) -/

/-- The size normalizer nested in `parse_line_item`.  Mirrors the source:
a value with more than one dot keeps its first two dot-parts and is then
float-formatted; a single-dot value is float-formatted; a dotless value is
returned unchanged; a failed `float` keeps the (possibly already truncated)
string. -/
def extract_size_value (v : List Char) : List Char :=
  if v.contains '.' then
    if 1 < v.countP (· == '.') then
      let ps := splitOnDot v
      if 2 ≤ ps.length then
        let normalized := ps.getD 0 [] ++ '.' :: ps.getD 1 []
        match pyFloat normalized with
        | some q => fmt2 q
        | none => normalized
      else []
      -- the `else` is unreachable: more than one dot splits into at least
      -- three parts; the source would fall off the function here
    else
      match pyFloat v with
      | some q => fmt2 q
      | none => v
  else v

/-- `correct_double_decimal_number` (src/app.py lines 497–504): repairs a
three-part all-digit dotted value as `{last digit of part 1}.{first two
digits of part 3, zero-padded}`; anything else is returned unchanged. -/
def correct_double_decimal_number (val : List Char) : List Char :=
  let parts := splitOnDot val
  if parts.length = 3 && parts.all (fun p => !p.isEmpty && p.all Char.isDigit) then
    match (parts.getD 0 []).reverse with
    | ld :: _ => ld :: '.' :: ((parts.getD 2 [] ++ ['0', '0']).take 2)
    | [] => val
  else val

/-! ## Anchored token matchers (the `re.match` patterns of `parse_line_item`) -/

/-- Head of the list satisfies `p` (an `X+` class needs at least one char). -/
def headIs (p : Char → Bool) : List Char → Bool
  | c :: _ => p c
  | [] => false

/-- `re.match(r"\d{2}KT", t)` would succeed (the first alternative of the
metal patterns). -/
def startsTwoDigitKT : List Char → Bool
  | a :: b :: c :: d :: _ => a.isDigit && b.isDigit && c == 'K' && d == 'T'
  | _ => false

/-- `re.match(r"\d{2}KT|PLAT|SILV|STER", part)` (line 261): the alternation
binds loosest, so this is a prefix test for any of the four alternatives. -/
def metalTokStart (t : List Char) : Bool :=
  startsTwoDigitKT t || startsL "PLAT".data t || startsL "SILV".data t || startsL "STER".data t

/-- `re.match(r'^\d{2}KT|PLAT|SILV|STER$', t)` (line 224): by the same
precedence the `^` only anchors the first alternative (redundantly, under
`re.match`) and the `$` only applies to `STER`. -/
def metalQuirk (t : List Char) : Bool :=
  startsTwoDigitKT t || startsL "PLAT".data t || startsL "SILV".data t || t == "STER".data

/-- `re.match(r'^\d{2}KT$', t)` (line 221). -/
def fullTwoKT : List Char → Bool
  | [a, b, 'K', 'T'] => a.isDigit && b.isDigit
  | _ => false

/-- `re.match(r"^[A-Z]{1,2}$", t)`. -/
def oneTwoUpper : List Char → Bool
  | [a] => a.isUpper
  | [a, b] => a.isUpper && b.isUpper
  | _ => false

/-- `re.match(r"^S-([\d.]+)$", t)`, returning the captured group. -/
def sizeIndicatorPayload : List Char → Option (List Char)
  | 'S' :: '-' :: r => if !r.isEmpty && r.all isDigitDot then some r else none
  | _ => none

/-- `re.match(r'^[\d.]+$', t)` (line 206). -/
def digitsDotsFull (t : List Char) : Bool := !t.isEmpty && t.all isDigitDot

/-- Automaton for `^(\d+(?:\.\d+)*)$`: state `0` expects the first digit of
a digit group, state `1` is inside a digit group (a dot starts a new
group). -/
def bareAux : Nat → List Char → Bool
  | 0, c :: cs => c.isDigit && bareAux 1 cs
  | 0, [] => false
  | 1, [] => true
  | 1, c :: cs => if c.isDigit then bareAux 1 cs else c == '.' && bareAux 0 cs
  | _, _ => false

/-- `re.match(r"^(\d+(?:\.\d+)*)$", t)` (line 320). -/
def bareNumber (t : List Char) : Bool := bareAux 0 t

/-- `re.match(r"[A-Z0-9]+\+[A-Z]+", t, re.IGNORECASE)`: a maximal
alphanumeric run, a plus, at least one letter. -/
def plusGradeCI (t : List Char) : Bool :=
  !(t.takeWhile (fun c => c.isAlpha || c.isDigit)).isEmpty &&
    (match t.dropWhile (fun c => c.isAlpha || c.isDigit) with
     | '+' :: r2 => headIs Char.isAlpha r2
     | _ => false)

/-- Second alternative `[A-Z]+“dash or slash”[A-Z0-9]+` under `re.IGNORECASE`. -/
def dashGradeCI (t : List Char) : Bool :=
  !(t.takeWhile Char.isAlpha).isEmpty &&
    (match t.dropWhile Char.isAlpha with
     | c :: r2 => (c == '-' || c == '/') && headIs (fun d => d.isAlpha || d.isDigit) r2
     | [] => false)

/-- `re.match(r"[A-Z0-9]+\+[A-Z]+|[A-Z]+“dash or slash”[A-Z0-9]+", t, re.IGNORECASE)`
(the quality-grade test of the size and quality loops). -/
def qualGradeCI (t : List Char) : Bool := plusGradeCI t || dashGradeCI t

/-- `re.match(r"[A-Z][+-]?“dash or slash”[A-Z0-9]+", t)` (case-sensitive, line 345),
with the backtracking of the optional `[+-]?`. -/
def diaP1 : List Char → Bool
  | a :: r =>
      a.isUpper &&
        ((match r with
          | c1 :: c2 :: r2 =>
              (c1 == '+' || c1 == '-') && (c2 == '-' || c2 == '/') && headIs isUpperDigit r2
          | _ => false) ||
         (match r with
          | c1 :: r2 => (c1 == '-' || c1 == '/') && headIs isUpperDigit r2
          | [] => false))
  | [] => false

/-- `re.match(r"\w{3}/\d{2}/\d{4}", part)` (the ship-date shape test). -/
def dateShape : List Char → Bool
  | a :: b :: c :: s1 :: d1 :: d2 :: s2 :: y1 :: y2 :: y3 :: y4 :: _ =>
      isWordC a && isWordC b && isWordC c && s1 == '/' && d1.isDigit && d2.isDigit &&
        s2 == '/' && y1.isDigit && y2.isDigit && y3.isDigit && y4.isDigit
  | _ => false

/-! ## `datetime.strptime(..., "%b/%d/%Y").strftime("%d-%m-%Y")` -/

/-- Python `str.split(sep)` for a one-character separator: split on every
occurrence, keeping empty pieces. -/
def splitOnC (sep : Char) (l : List Char) : List (List Char) :=
  l.foldr
    (fun c acc =>
      if c == sep then [] :: acc
      else match acc with
        | h :: t => (c :: h) :: t
        | [] => [[c]])
    [[]]

def monthAbbrev : List (List Char) :=
  ["jan", "feb", "mar", "apr", "may", "jun", "jul", "aug", "sep", "oct", "nov", "dec"].map
    String.data

def monthFull : List (List Char) :=
  ["january", "february", "march", "april", "may", "june", "july", "august", "september",
    "october", "november", "december"].map String.data

/-- 1-based index of a month name in a name table. -/
def monthIdxAux : List (List Char) → Nat → List Char → Option Nat
  | [], _, _ => none
  | m :: ms, i, t => if t == m then some i else monthIdxAux ms (i + 1) t

def isLeap (y : Nat) : Bool := y % 4 == 0 && (y % 100 != 0 || y % 400 == 0)

def daysInMonth (m y : Nat) : Nat :=
  if m == 2 then (if isLeap y then 29 else 28)
  else if m == 4 || m == 6 || m == 9 || m == 11 then 30
  else 31

def pad4 (n : Nat) : String :=
  if n < 10 then "000" ++ toString n
  else if n < 100 then "00" ++ toString n
  else if n < 1000 then "0" ++ toString n
  else toString n

/-- `datetime.strptime(t, fmt).strftime("%d-%m-%Y")` where `fmt` is
`Mon/DD/YYYY` with month names drawn from `table` (`%b` abbreviated or `%B`
full, both case-insensitive); `none` models the `ValueError` on any
mismatch, including a day out of range for the month.  `strptime` must
consume the whole string, the day takes one or two digits with value
checked against the month, and the year takes exactly four digits with
year zero rejected by `datetime`. -/
def strptimeMonDY (table : List (List Char)) (t : List Char) : Option String :=
  match splitOnC '/' t with
  | [m, d, y] =>
      match monthIdxAux table 1 (pyLower m) with
      | none => none
      | some mi =>
          if 1 ≤ d.length && d.length ≤ 2 && d.all Char.isDigit &&
              y.length == 4 && y.all Char.isDigit then
            let dv := natOfDigits d
            let yv := natOfDigits y
            if 1 ≤ dv && dv ≤ daysInMonth mi yv && 1 ≤ yv then
              some (pad2 dv ++ "-" ++ pad2 mi ++ "-" ++ pad4 yv)
            else none
          else none
  | _ => none

/-- `%b/%d/%Y` (abbreviated month), as used throughout
`src/pdf_extractor_final.py`. -/
def strptime_bdY (t : List Char) : Option String := strptimeMonDY monthAbbrev t

/-- The ship-date normalization of `src/app.py` lines 645–651: try the
abbreviated then the full month format; `none` models the explicit
`raise ValueError` when both fail. -/
def app_normalize_date (raw : String) : Option String :=
  match strptime_bdY raw.data with
  | some s => some s
  | none => strptimeMonDY monthFull raw.data

/-! ## Category chains (src/pdf_extractor_final.py lines 364–405, 446–464) -/

/-- Python's `needle in hay` on an uppercased haystack. -/
def containsTok (needle : String) (hay : List Char) : Bool := hasSub needle.data hay

/-- SKU-pattern category chain (lines 366–384). -/
def skuCategory (su : List Char) : String :=
  if containsTok "BAND" su || startsL "LGB-".data su then "BAND"
  else if containsTok "BRAC" su || containsTok "BRACELET" su then "BRACELET"
  else if containsTok "NECK" su || containsTok "NECKLACE" su then "NECKLACE"
  else if containsTok "PEND" su || containsTok "PENDANT" su || containsTok "-RVP" su then "PENDANT"
  else if containsTok "RING" su || containsTok "-WR" su || containsTok "-RVR" su ||
      containsTok "-TXR" su then "RING"
  else if containsTok "EARR" su || containsTok "EARRING" su || containsTok "-TXE" su ||
      containsTok "-RVE" su then "EARRING"
  else if containsTok "CHAIN" su then "CHAIN"
  else if containsTok "SET" su then "SET"
  else ""

/-- Metal-suffix category chain (lines 394–405), applied to the suffix
letters captured after a `\d{2}K` occurrence. -/
def suffixCategory (suf : List Char) : String :=
  if containsTok "P" suf || containsTok "PEND" suf then "PENDANT"
  else if containsTok "R" suf || containsTok "RING" suf then "RING"
  else if containsTok "B" suf || containsTok "BAND" suf then "BAND"
  else if containsTok "N" suf || containsTok "NECK" suf then "NECKLACE"
  else if containsTok "E" suf || containsTok "EARR" suf then "EARRING"
  else if containsTok "C" suf || containsTok "CHAIN" suf then "CHAIN"
  else ""

/-- Description-fallback category chain (lines 448–464). -/
def descCategory (du : List Char) : String :=
  if containsTok "EARRING" du then "EARRING"
  else if containsTok "WEDDING BAND" du || containsTok "MACHINE BAND" du ||
      containsTok "BAND" du then "BAND"
  else if containsTok "BRACELET" du || containsTok "BRACLET" du || containsTok "BCG" du then
    "BRACELET"
  else if containsTok "PENDANT" du || containsTok " PD" du || containsTok "18KP" du then "PENDANT"
  else if containsTok "NECKLACE" du || containsTok "NECKALCE" du ||
      containsTok "NACKLACE" du then "NECKLACE"
  else if containsTok "RING" du || containsTok " R " du then "RING"
  else if containsTok "CHAIN" du then "CHAIN"
  else if containsTok "SET" du then "SET"
  else ""

/-! ## Leftmost searches (`re.search`) over a token line or the block context -/

/-- Leftmost-match search: try the anchored matcher at every start position,
left to right (Python `re.search`). -/
def scanFirst (f : List Char → Option α) : List Char → Option α
  | [] => f []
  | c :: cs =>
      match f (c :: cs) with
      | some r => some r
      | none => scanFirst f cs

/-- Anchored match of `(\d{2})K\s*([A-Z]+)` (line 389), returning both
groups.  The greedy `\s*` takes the maximal whitespace run; `[A-Z]+` then
needs at least one uppercase letter. -/
def matchMetalAt : List Char → Option (List Char × List Char)
  | a :: b :: c :: r =>
      if a.isDigit && b.isDigit && c == 'K' then
        let suf := (r.dropWhile isPyWs).takeWhile Char.isUpper
        if suf.isEmpty then none else some ([a, b], suf)
      else none
  | _ => none

/-- `re.search(r"(\d{2})K\s*([A-Z]+)", rest)`: leftmost occurrence. -/
def searchMetal : List Char → Option (List Char × List Char)
  | [] => none
  | c :: cs =>
      match matchMetalAt (c :: cs) with
      | some g => some g
      | none => searchMetal cs

/-- Literal match, returning the remainder. -/
def eatLit (pat l : List Char) : Option (List Char) :=
  if startsL pat l then some (l.drop pat.length) else none

/-- `\s+`: at least one whitespace char, maximal run. -/
def eatWs1 (l : List Char) : Option (List Char) :=
  if headIs isPyWs l then some (l.dropWhile isPyWs) else none

/-- `\s*`: maximal whitespace run (no backtracking needed when followed by a
non-whitespace literal or class). -/
def eatWs0 (l : List Char) : List Char := l.dropWhile isPyWs

/-- A maximal nonempty run of a character class, with the remainder. -/
def grabRun (p : Char → Bool) (l : List Char) : Option (List Char × List Char) :=
  let g := l.takeWhile p
  if g.isEmpty then none else some (g, l.dropWhile p)

/-- Anchored `ItemType\s+(\S+)` (line 432). -/
def matchItemTypeAt (l : List Char) : Option (List Char) := do
  let r ← eatLit "ItemType".data l
  let r ← eatWs1 r
  let (tok, _) ← grabRun (fun c => !isPyWs c) r
  pure tok

/-- Anchored `Engraving Text:\s*(.*)` (line 437): the greedy `\s*` may cross
line breaks, the group then takes the rest of that line (possibly empty). -/
def matchEngravingAt (l : List Char) : Option (List Char) :=
  (eatLit "Engraving Text:".data l).map (fun r => (eatWs0 r).takeWhile (· != '\n'))

/-- After the lazy group of the `Desc.` pattern: optional whitespace then the
literal `GM Min` (shorter whitespace runs cannot match the literal `G`). -/
def descanTail (r : List Char) : Bool := startsL "GM Min".data (r.dropWhile isPyWs)

/-- The lazy `(.*?)` of `Desc\.\s*(.*?)\s*GM Min`: grow the group one
character at a time (never across a line break) until the tail matches. -/
def descLazy (acc : List Char) : List Char → Option (List Char)
  | [] => if descanTail [] then some acc.reverse else none
  | c :: cs =>
      if descanTail (c :: cs) then some acc.reverse
      else if c == '\n' then none
      else descLazy (c :: acc) cs

/-- The greedy leading `\s*` of the `Desc.` pattern: try the maximal
whitespace run first, then shorter runs. -/
def descTryA (r : List Char) : Nat → Option (List Char)
  | 0 => descLazy [] r
  | a + 1 =>
      match descLazy [] (r.drop (a + 1)) with
      | some g => some g
      | none => descTryA r a

/-- Anchored `Desc\.\s*(.*?)\s*GM Min` (line 442). -/
def matchDescAt (l : List Char) : Option (List Char) :=
  match eatLit "Desc.".data l with
  | none => none
  | some r => descTryA r (r.takeWhile isPyWs).length

/-- Anchored `<lit>\s+Min Wt\s+([\d.]+)\s+Max Wt\s+([\d.]+)`
(lines 467 and 472, with `lit` = `GM` or `Diam`). -/
def matchTolAt (lit : List Char) (l : List Char) : Option (List Char × List Char) := do
  let r ← eatLit lit l
  let r ← eatWs1 r
  let r ← eatLit "Min Wt".data r
  let r ← eatWs1 r
  let (g1, r) ← grabRun isDigitDot r
  let r ← eatWs1 r
  let r ← eatLit "Max Wt".data r
  let r ← eatWs1 r
  let (g2, _) ← grabRun isDigitDot r
  pure (g1, g2)

/-! ## First-line parsing and SKU resolution (lines 127–241) -/

/-- `full_context.split('\n')[0]`. -/
def firstLine (l : List Char) : List Char := l.takeWhile (· != '\n')

/-- `re.match(r"^(\d{3})\s*(.+)", first_line)` with `int` applied to the
first group.  The greedy `\s*` yields the maximal whitespace run; if
nothing remains for `(.+)` it gives one character back (the line passed in
never contains a newline, so the dot always accepts it). -/
def matchLineNo (l : List Char) : Option (Nat × List Char) :=
  match l with
  | d1 :: d2 :: d3 :: rest =>
      if d1.isDigit && d2.isDigit && d3.isDigit then
        let r := rest.dropWhile isPyWs
        if r.isEmpty then
          match rest.reverse with
          | [] => none
          | c :: _ => if c == '\n' then none else some (digitVal d1 * 100 + digitVal d2 * 10 + digitVal d3, [c])
        else some (digitVal d1 * 100 + digitVal d2 * 10 + digitVal d3, r)
      else none
  | _ => none

/-- Scan for the lazy split of `(.+?/\d{3})(.+)` (lines 164 and 188; the
leading `^` and trailing `$` of the first use change nothing): the earliest
slash, at position at least one, followed by three digits and at least one
further character splits the token into order number and vendor style. -/
def orderSplitAux (acc : List Char) : List Char → Option (List Char × List Char)
  | [] => none
  | '/' :: a :: b :: d :: r2 =>
      if a.isDigit && b.isDigit && d.isDigit && !r2.isEmpty then
        some (acc.reverse ++ ['/', a, b, d], r2)
      else orderSplitAux ('/' :: acc) (a :: b :: d :: r2)
  | c :: cs => orderSplitAux (c :: acc) cs

def orderSplit : List Char → Option (List Char × List Char)
  | [] => none
  | c :: cs => orderSplitAux [c] cs

/-- The order-number / vendor-style / Kama-SKU disambiguation of
`parse_line_item` (lines 156–241), as a function of the whitespace-split
token list: three stages of fallbacks on the mutable
`(order_number, vendor_style, kama_sku)` triple. -/
def resolveSkuFields (parts : List (List Char)) : List Char × List Char × List Char :=
  let p0 := parts.getD 0 []
  let s1 : List Char × List Char × List Char :=
    if !p0.isEmpty && p0.contains '/' then
      match orderSplit p0 with
      | some g => (g.1, g.2, parts.getD 1 [])
      | none => (p0, [], [])
    else (p0, [], [])
  let s2 : List Char × List Char × List Char :=
    if s1.2.1.isEmpty || s1.2.2.isEmpty then
      let p1 := parts.getD 1 []
      if 2 < parts.length && p1.contains '/' && !startsL "LGD".data p1 &&
          !startsL "LG".data p1 && !startsL "LGR".data p1 then
        match orderSplit p1 with
        | some g => (g.1, g.2, parts.getD 2 [])
        | none =>
            (s1.1, (if s1.2.1.isEmpty then p1 else s1.2.1),
              (if s1.2.2.isEmpty then parts.getD 2 [] else s1.2.2))
      else s1
    else s1
  if s2.2.1.isEmpty || s2.2.2.isEmpty then
    let p1 := parts.getD 1 []
    let p2 := parts.getD 2 []
    let p2IsSize := 2 < parts.length && ((sizeIndicatorPayload p2).isSome || digitsDotsFull p2)
    if p2IsSize && 3 < parts.length then
      (s2.1, (if s2.2.1.isEmpty then parts.getD 1 [] else s2.2.1),
        (if s2.2.2.isEmpty then parts.getD 3 [] else s2.2.2))
    else if 2 < parts.length && p1.length < p2.length && p2.any Char.isUpper then
      (s2.1, (if s2.2.1.isEmpty then parts.getD 1 [] else s2.2.1),
        (if s2.2.2.isEmpty then p2 else s2.2.2))
    else if 1 < parts.length && p1.any Char.isUpper && !fullTwoKT p1 then
      if parts.length ≤ 2 || metalQuirk p2 then
        (s2.1, (if s2.2.1.isEmpty then p1 else s2.2.1),
          (if s2.2.2.isEmpty then p1 else s2.2.2))
      else
        (s2.1, (if s2.2.1.isEmpty then parts.getD 1 [] else s2.2.1),
          (if s2.2.2.isEmpty then parts.getD 2 [] else s2.2.2))
    else
      (s2.1, (if s2.2.1.isEmpty then parts.getD 1 [] else s2.2.1),
        (if s2.2.2.isEmpty then parts.getD 2 [] else s2.2.2))
  else s2

/-- The block-validity metal-marker test (line 249): a marker substring
anywhere in the rest of the first line. -/
def hasMetalMarker (rest : List Char) : Bool :=
  hasSub "KT".data rest || hasSub "PLAT".data rest || hasSub "SILV".data rest ||
    hasSub "STER".data rest

/-! ## The field loops of `parse_line_item` -/

/-- Index of the first token matching the metal pattern (lines 260–267). -/
def findMetalIdx : List (List Char) → Nat → Option Nat
  | [], _ => none
  | t :: ts, i => if metalTokStart t then some i else findMetalIdx ts (i + 1)

/-- The reserved-token list of the size loop (line 300). -/
def reserved7 (t : List Char) : Bool :=
  t == "W".data || t == "Y".data || t == "PLAT".data || t == "SILV".data ||
    t == "STER".data || t == "RD".data || t == "EX".data

/-- The reserved-token list of the quality loop (lines 351 and 357). -/
def reserved5 (t : List Char) : Bool :=
  t == "W".data || t == "Y".data || t == "PLAT".data || t == "SILV".data || t == "STER".data

/-- The body of the forward size search, iterated once per remaining index
(`fuel` counts the indices left up to `parts.length`). -/
def sizeLoopGo (parts : List (List Char)) (i : Nat) : Nat → List Char
  | 0 => []
  | fuel + 1 =>
      let part := parts.getD i []
      if oneTwoUpper part && !reserved7 part &&
          (decide (i + 1 < parts.length) && qualGradeCI (parts.getD (i + 1) [])) then []
      else if qualGradeCI part then []
      else
        match sizeIndicatorPayload part with
        | some payload => extract_size_value payload
        | none =>
            if bareNumber part then extract_size_value part
            else sizeLoopGo parts (i + 1) fuel

/-- The forward size search (lines 295–323), started just after the metal
color: stop empty-handed at a quality prefix with a quality-grade successor
or at a token that itself prefix-matches the quality-grade pattern;
otherwise accept an `S-` indicator or a bare number, normalized. -/
def sizeLoop (parts : List (List Char)) (i : Nat) : List Char :=
  sizeLoopGo parts i (parts.length - i)

/-- The backward size search (lines 326–335): from just below the metal-KT
index down to token zero, accepting only `S-` indicators. -/
def sizeBack (parts : List (List Char)) : Nat → List Char
  | 0 =>
      match sizeIndicatorPayload (parts.getD 0 []) with
      | some payload => extract_size_value payload
      | none => []
  | i + 1 =>
      match sizeIndicatorPayload (parts.getD (i + 1) []) with
      | some payload => extract_size_value payload
      | none => sizeBack parts i

/-- The body of the diamond-quality loop, one step per remaining index. -/
def diaLoopGo (parts : List (List Char)) (i : Nat) : Nat → List Char
  | 0 => []
  | fuel + 1 =>
      let part := parts.getD i []
      if diaP1 part then part
      else if plusGradeCI part then
        if decide (0 < i) && oneTwoUpper (parts.getD (i - 1) []) &&
            !reserved5 (parts.getD (i - 1) []) then
          parts.getD (i - 1) [] ++ ' ' :: part
        else part
      else if decide (i + 1 < parts.length) && oneTwoUpper part && !reserved5 part &&
          qualGradeCI (parts.getD (i + 1) []) then
        part ++ ' ' :: parts.getD (i + 1) []
      else diaLoopGo parts (i + 1) fuel

/-- The diamond-quality loop (lines 342–362). -/
def diaLoop (parts : List (List Char)) (i : Nat) : List Char :=
  diaLoopGo parts i (parts.length - i)

/-- The body of the ship-date / quantity loop, one step per remaining index. -/
def dateLoopGo (parts : List (List Char)) (i : Nat) : Nat → List Char × List Char
  | 0 => ([], [])
  | fuel + 1 =>
      let part := parts.getD i []
      if dateShape part then
        ((match strptime_bdY part with
          | some s => s.data
          | none => part),
          if i + 1 < parts.length then parts.getD (i + 1) [] else [])
      else dateLoopGo parts (i + 1) fuel

/-- The ship-date / quantity loop (lines 411–421). -/
def dateLoop (parts : List (List Char)) (i : Nat) : List Char × List Char :=
  dateLoopGo parts i (parts.length - i)

/-! ## `parse_line_item` (src/pdf_extractor_final.py lines 117–497) -/

structure LineItem where
  lineNo : String
  orderNumber : String
  vendorStyle : String
  kamaSKU : String
  metalKT : String
  metalColor : String
  size : String
  shipDate : String
  qty : String
  diaQuality : String
  itemType : String
  engraving : String
  desc : String
  category : String
  metalTol : String
  diaTol : String
  reqDate : String
deriving Repr, DecidableEq

/-- The metal-suffix category step (lines 386–405): the leftmost
`(\d{2})K\s*([A-Z]+)` occurrence of the line, if any, has its suffix letters
run through the suffix chain; no occurrence or no chain hit leaves the
category empty. -/
def metalSuffixCategory (rest : List Char) : String :=
  match searchMetal rest with
  | some g => suffixCategory g.2
  | none => ""

/-- The complete three-step category classification of `parse_line_item`
(lines 364–405 and 446–464): SKU chain, then metal-suffix step, then — when
both leave the category empty and a description was extracted — the
description chain. -/
def categoryOf (kamaS rest desc : List Char) : String :=
  let c1 := skuCategory (pyUpper kamaS)
  let c2 := if c1 == "" then metalSuffixCategory rest else c1
  if c2 == "" && !desc.isEmpty then descCategory (pyUpper desc) else c2

/-- The successful tail of `parse_line_item`: every field after validation
has passed.  `ctx` is the full block context, `rest` the first line after
the three-digit prefix, `parts` its whitespace split, and the last three
arguments the resolved order number / vendor style / Kama SKU. -/
def buildItem (ctx : List Char) (n : Nat) (rest : List Char) (parts : List (List Char))
    (orderN vendorS kamaS : List Char) : LineItem :=
  let mIdx := findMetalIdx parts 0
  let metalKT := match mIdx with | some i => parts.getD i [] | none => []
  let mci : Option Nat :=
    match mIdx with
    | some i => if i + 1 < parts.length then some (i + 1) else none
    | none => none
  let metalColor := match mci with | some j => parts.getD j [] | none => []
  let size1 := match mci with | some j => sizeLoop parts (j + 1) | none => []
  let size :=
    if size1.isEmpty then
      match mIdx with
      | some i => (match i with | 0 => [] | k + 1 => sizeBack parts k)
      | none => []
    else size1
  let dia := diaLoop parts (match mci with | some j => j + 1 | none => 0)
  let dq := dateLoop parts 0
  let itemType := (scanFirst matchItemTypeAt ctx).getD []
  let engraving := match scanFirst matchEngravingAt ctx with | some g => pyStrip g | none => []
  let desc := match scanFirst matchDescAt ctx with | some g => pyStrip g | none => []
  let c3 := categoryOf kamaS rest desc
  let metalTol :=
    match scanFirst (matchTolAt "GM".data) ctx with
    | some g => g.1 ++ '-' :: g.2
    | none => []
  let diaTol :=
    match scanFirst (matchTolAt "Diam".data) ctx with
    | some g => g.1 ++ '-' :: g.2
    | none => []
  { lineNo := toString n
    orderNumber := String.mk orderN
    vendorStyle := String.mk vendorS
    kamaSKU := String.mk kamaS
    metalKT := String.mk metalKT
    metalColor := String.mk metalColor
    size := String.mk size
    shipDate := String.mk dq.1
    qty := String.mk dq.2
    diaQuality := String.mk dia
    itemType := String.mk itemType
    engraving := String.mk engraving
    desc := String.mk desc
    category := c3
    metalTol := String.mk metalTol
    diaTol := String.mk diaTol
    reqDate := String.mk dq.1 }

/-- `parse_line_item` (lines 117–497): parse one block context into a line
item, or reject it (`none`). -/
def parse_line_item (ctx : String) : Option LineItem :=
  match matchLineNo (firstLine ctx.data) with
  | none => none
  | some (n, rest) =>
      if n < 101 || 999 < n then none
      else
        let parts := splitWs rest
        if parts.length < 3 then none
        else
          let r := resolveSkuFields parts
          if r.2.2.isEmpty || r.2.2.length < 3 then none
          else if !hasMetalMarker rest then none
          else some (buildItem ctx.data n rest parts r.1 r.2.1 r.2.2)

/-! ## The segmenter of `extract_line_items` (lines 499–527) -/

/-- A line opens a candidate block in the final extractor:
`re.match(r"^\d{3}\s+", line)` (lines 514 and 518). -/
def lineStartsBlock (line : String) : Bool :=
  match line.data with
  | a :: b :: c :: d :: _ => a.isDigit && b.isDigit && c.isDigit && isPyWs d
  | _ => false

/-- The context-accumulation loop (lines 516–520): append up to `fuel`
following lines, stopping at the next block-start line. -/
def ctxGo (fuel : Nat) (ls : List String) (acc : String) : String :=
  match fuel, ls with
  | 0, _ => acc
  | _, [] => acc
  | n + 1, l :: ls' => if lineStartsBlock l then acc else ctxGo n ls' (acc ++ "\n" ++ l)

/-- The context built for the line at index `i`: the line itself plus at
most the next nine lines, up to the next block-start line
(`range(i + 1, min(i + 10, len(lines)))`). -/
def contextAt (lines : List String) (i : Nat) : String :=
  ctxGo 9 (lines.drop (i + 1)) (lines.getD i "")

/-- All block contexts the segmenter hands to `parse_line_item`, in order. -/
def blockContexts (lines : List String) : List String :=
  (List.range lines.length).filterMap
    (fun i => if lineStartsBlock (lines.getD i "") then some (contextAt lines i) else none)

/-- Python `str.splitlines()` restricted to `\n` separators, the only line
break the extractor's inputs contain (`page.extract_text` joins pages with
`\n`). -/
def splitLines (text : String) : List String :=
  (splitOnC '\n' text.data).map String.mk

/-- `extract_line_items` (lines 499–527). -/
def extract_line_items (text : String) : List LineItem :=
  (blockContexts (splitLines text)).filterMap parse_line_item

/-! ## `extract_header_info` (lines 67–115) -/

structure HeaderInfo where
  vendor : String
  poNumber : String
  poDate : String
  vendorPO : String
  customerName : String
deriving Repr, DecidableEq

/-- Anchored `Purchase From\s*:\s*([^\s]+)` (line 86). -/
def matchVendorAt (l : List Char) : Option (List Char) := do
  let r ← eatLit "Purchase From".data l
  let r ← eatLit ":".data (eatWs0 r)
  let (g, _) ← grabRun (fun c => !isPyWs c) (eatWs0 r)
  pure g

/-- Anchored `PO #\s*:\s*(\d+)` (line 91). -/
def matchPOAt (l : List Char) : Option (List Char) := do
  let r ← eatLit "PO #".data l
  let r ← eatLit ":".data (eatWs0 r)
  let (g, _) ← grabRun Char.isDigit (eatWs0 r)
  pure g

/-- `\s+([^\n]+)` after a literal: at least one whitespace char, then the
rest of the line; when the string ends in whitespace the last whitespace
char is given back to the group provided it is not itself a newline. -/
def wsPlusLineGroup (r : List Char) : Option (List Char) :=
  let ws := r.takeWhile isPyWs
  if ws.isEmpty then none
  else
    let rest := r.dropWhile isPyWs
    if !rest.isEmpty then some (rest.takeWhile (· != '\n'))
    else
      match ws.reverse with
      | c :: _ :: _ => if c == '\n' then none else some [c]
      | _ => none

/-- Anchored `Cust Name\s+([^\n]+)` (line 98). -/
def matchCustAt (l : List Char) : Option (List Char) :=
  match eatLit "Cust Name".data l with
  | none => none
  | some r => wsPlusLineGroup r

/-- Anchored `Vendor PO #\s+([^\n]+)` (line 111). -/
def matchVendorPOAt (l : List Char) : Option (List Char) :=
  match eatLit "Vendor PO #".data l with
  | none => none
  | some r => wsPlusLineGroup r

/-- Anchored `Date\s*:\s*(\w+/\d+/\d+)` (line 103). -/
def matchPODateAt (l : List Char) : Option (List Char) := do
  let r ← eatLit "Date".data l
  let r ← eatLit ":".data (eatWs0 r)
  let (w, r) ← grabRun isWordC (eatWs0 r)
  let r ← eatLit "/".data r
  let (d1, r) ← grabRun Char.isDigit r
  let r ← eatLit "/".data r
  let (d2, _) ← grabRun Char.isDigit r
  pure (w ++ '/' :: d1 ++ '/' :: d2)

/-- `extract_header_info` (lines 67–115): five independent leftmost
searches over the whole document text. -/
def extract_header_info (text : String) : HeaderInfo :=
  { vendor := String.mk ((scanFirst matchVendorAt text.data).getD [])
    poNumber := String.mk ((scanFirst matchPOAt text.data).getD [])
    poDate :=
      match scanFirst matchPODateAt text.data with
      | some g =>
          match strptime_bdY g with
          | some s => s
          | none => String.mk g
      | none => ""
    vendorPO := String.mk (pyStrip ((scanFirst matchVendorPOAt text.data).getD []))
    customerName := String.mk (pyStrip ((scanFirst matchCustAt text.data).getD [])) }

/-! ## The per-document orchestrator (lines 569–581) -/

/-- One merged output record: `{**header_info, **line_item}` — the header
and item key sets are disjoint, so the merge is a plain pairing. -/
structure CombinedRecord where
  header : HeaderInfo
  item : LineItem
deriving Repr, DecidableEq

/-- The pure part of `extract_data_from_pdf` after the text has been read
(lines 569–581): extract the header once, extract the line items, and merge
the same header into every item. -/
def extract_data_from_pdf_text (text : String) : List CombinedRecord :=
  (extract_line_items text).map (fun li => ⟨extract_header_info text, li⟩)

/-! ## The segmenter of `src/app.py` (lines 889–913) -/

/-- `is_block_start` (src/app.py lines 889–896): `re.match(r"^(\d{3})")`
takes the first three characters as digits — whatever follows them — and
accepts values in `[101, 400]`. -/
def is_block_start (line : String) : Option Nat :=
  match line.data with
  | c0 :: c1 :: c2 :: _ =>
      if c0.isDigit && c1.isDigit && c2.isDigit then
        let n := digitVal c0 * 100 + digitVal c1 * 10 + digitVal c2
        if 101 ≤ n && n ≤ 400 then some n else none
      else none
  | _ => none

/-! ## Reference formulations used to compare against the claims -/

/-- First-match lookup over a priority list of keyword sets: the category of
the first entry one of whose keywords occurs in the (uppercased) text. -/
def catChainLookup : List (List String × String) → List Char → String
  | [], _ => ""
  | (keys, cat) :: rest, du =>
      if keys.any (fun k => containsTok k du) then cat else catChainLookup rest du

/-- The description-fallback chain of the source (lines 448–464) as an
explicit priority list. -/
def descChain : List (List String × String) :=
  [(["EARRING"], "EARRING"),
   (["WEDDING BAND", "MACHINE BAND", "BAND"], "BAND"),
   (["BRACELET", "BRACLET", "BCG"], "BRACELET"),
   (["PENDANT", " PD", "18KP"], "PENDANT"),
   (["NECKLACE", "NECKALCE", "NACKLACE"], "NECKLACE"),
   (["RING", " R "], "RING"),
   (["CHAIN"], "CHAIN"),
   (["SET"], "SET")]

/-- The description fallback as claim C8 words it: the SKU test's keyword
set in the SKU test's priority order — BAND before BRACELET before NECKLACE
before PENDANT before RING before EARRING before CHAIN before SET — extended
with the listed synonyms and misspellings. -/
def descCategorySpecOrder (du : List Char) : String :=
  if containsTok "BAND" du then "BAND"
  else if containsTok "BRAC" du || containsTok "BRACELET" du || containsTok "BRACLET" du then
    "BRACELET"
  else if containsTok "NECK" du || containsTok "NECKLACE" du || containsTok "NECKALCE" du ||
      containsTok "NACKLACE" du then "NECKLACE"
  else if containsTok "PEND" du || containsTok "PENDANT" du || containsTok " PD" du ||
      containsTok "18KP" du then "PENDANT"
  else if containsTok "RING" du || containsTok " R " du then "RING"
  else if containsTok "EARR" du || containsTok "EARRING" du then "EARRING"
  else if containsTok "CHAIN" du then "CHAIN"
  else if containsTok "SET" du then "SET"
  else ""

/-- Claim C3's block-start rule as worded: the line begins with exactly
three digits (the fourth character, if any, is not a digit) whose value
lies in `[101, 400]`. -/
def blockStartClaim (line : String) : Bool :=
  match line.data with
  | c0 :: c1 :: c2 :: rest =>
      (c0.isDigit && c1.isDigit && c2.isDigit) && !headIs Char.isDigit rest &&
        (101 ≤ digitVal c0 * 100 + digitVal c1 * 10 + digitVal c2 &&
          digitVal c0 * 100 + digitVal c1 * 10 + digitVal c2 ≤ 400)
  | _ => false

/-- The amended block-start rule for `is_block_start`: the first three
characters are digits with value in `[101, 400]`, whatever follows them. -/
def blockStartAmended (line : String) : Bool :=
  match line.data with
  | c0 :: c1 :: c2 :: _ =>
      (c0.isDigit && c1.isDigit && c2.isDigit) &&
        (101 ≤ digitVal c0 * 100 + digitVal c1 * 10 + digitVal c2 &&
          digitVal c0 * 100 + digitVal c1 * 10 + digitVal c2 ≤ 400)
  | _ => false

/-- No anchored match of the metal pattern starts inside `pre` when the
text continues with `tail` (the positions of `pre ++ tail` strictly before
`tail`). -/
def noMetalMatchPre (pre tail : List Char) : Bool :=
  match pre with
  | [] => true
  | c :: cs => (matchMetalAt (c :: (cs ++ tail))).isNone && noMetalMatchPre cs tail

/-- An all-empty line item, used as a `getD` default when reading a parse
result known to be `some`. -/
def noItem : LineItem :=
  ⟨"", "", "", "", "", "", "", "", "", "", "", "", "", "", "", "", ""⟩

/-! ## Helper lemmas about substring occurrence -/

theorem startsL_append (pat t u : List Char) (h : startsL pat t = true) :
    startsL pat (t ++ u) = true := by
  induction pat generalizing t with
  | nil => simp [startsL]
  | cons p ps ih =>
      cases t with
      | nil => simp [startsL] at h
      | cons c cs =>
          simp only [startsL, Bool.and_eq_true] at h ⊢
          exact ⟨h.1, ih cs h.2⟩

theorem startsL_nil_all (pat : List Char) (h : startsL pat [] = true) (l : List Char) :
    startsL pat l = true := by
  cases pat with
  | nil => cases l <;> simp [startsL]
  | cons p ps => simp [startsL] at h

theorem hasSub_cons (pat : List Char) (c : Char) (l : List Char) (h : hasSub pat l = true) :
    hasSub pat (c :: l) = true := by
  simp [hasSub, h]

theorem hasSub_takeWhile (pat : List Char) (p : Char → Bool) (l : List Char)
    (h : hasSub pat (l.takeWhile p) = true) : hasSub pat l = true := by
  induction l with
  | nil => simpa using h
  | cons c cs ih =>
      by_cases hc : p c = true
      · rw [List.takeWhile_cons_of_pos hc] at h
        simp only [hasSub, Bool.or_eq_true] at h ⊢
        rcases h with h | h
        · left
          have h2 := startsL_append pat (c :: cs.takeWhile p) (cs.dropWhile p) h
          rwa [List.cons_append, List.takeWhile_append_dropWhile] at h2
        · right
          exact ih h
      · rw [List.takeWhile_cons_of_neg (by simpa using hc)] at h
        simp only [hasSub] at h
        simp only [hasSub, Bool.or_eq_true]
        left
        exact startsL_nil_all pat h _

theorem hasSub_dropWhile (pat : List Char) (p : Char → Bool) (l : List Char)
    (h : hasSub pat (l.dropWhile p) = true) : hasSub pat l = true := by
  induction l with
  | nil => simpa using h
  | cons c cs ih =>
      by_cases hc : p c = true
      · rw [List.dropWhile_cons_of_pos hc] at h
        exact hasSub_cons pat c cs (ih h)
      · rwa [List.dropWhile_cons_of_neg (by simpa using hc)] at h

theorem hasSub_singleton_false (pat : List Char) (h : 2 ≤ pat.length) (c : Char) :
    hasSub pat [c] = false := by
  match pat, h with
  | p1 :: p2 :: ps, _ => simp [hasSub, startsL]

/-- A marker of length at least two found in the rest-of-line returned by
`matchLineNo` also occurs in the matched line itself. -/
theorem hasSub_of_matchLineNo (pat : List Char) (hlen : 2 ≤ pat.length) (l : List Char)
    (n : Nat) (rest : List Char) (hm : matchLineNo l = some (n, rest))
    (h : hasSub pat rest = true) : hasSub pat l = true := by
  match l with
  | [] => simp [matchLineNo] at hm
  | [d1] => simp [matchLineNo] at hm
  | [d1, d2] => simp [matchLineNo] at hm
  | d1 :: d2 :: d3 :: rest0 =>
      simp only [matchLineNo] at hm
      by_cases hd : (d1.isDigit && d2.isDigit && d3.isDigit) = true
      · rw [if_pos hd] at hm
        by_cases he : (rest0.dropWhile isPyWs).isEmpty = true
        · rw [if_pos he] at hm
          cases hr : rest0.reverse with
          | nil => rw [hr] at hm; simp at hm
          | cons c cs =>
              rw [hr] at hm
              dsimp only at hm
              by_cases hc : (c == '\n') = true
              · simp [hc] at hm
              · rw [if_neg hc, Option.some.injEq, Prod.mk.injEq] at hm
                obtain ⟨-, h2⟩ := hm
                rw [← h2] at h
                rw [hasSub_singleton_false pat hlen c] at h
                cases h
        · rw [if_neg he, Option.some.injEq, Prod.mk.injEq] at hm
          obtain ⟨-, h2⟩ := hm
          rw [← h2] at h
          exact hasSub_cons pat d1 _ (hasSub_cons pat d2 _ (hasSub_cons pat d3 _
            (hasSub_dropWhile pat isPyWs rest0 h)))
      · rw [if_neg hd] at hm; exact absurd hm (by simp)

/-! ## Claim C1 — Scenario A, settled by evaluation -/

/-- C1: on the Scenario A line
`101 E2831893/101LGR-RVR07619-WG4 LGR-RVR07619-WG4 14KT W S-7.25 F-VS2 Jan/21/2025 2.0`
the extractor produces LineNo 101, OrderNumber `E2831893/101`, VendorStyle
and KamaSKU `LGR-RVR07619-WG4`, MetalKT `14KT`, MetalColor `W`, ShipDate
`21-01-2025`, Qty `2.0` and Category `RING` exactly as the claim states —
but Size comes out empty (the size loop breaks at `S-7.25`, which
prefix-matches the quality-grade pattern `[A-Z]+[-∕][A-Z0-9]+` before the
size-indicator branch written for it can run) and DiaQuality comes out
`S-7.25` instead of `F-VS2` (the quality pattern `[A-Z][+-]?[-∕][A-Z0-9]+`
also accepts `S-7`), contradicting the claimed Size `7.25` and DiaQuality
`F-VS2`. -/
theorem C1_scenarioA_eval :
    parse_line_item
        "101 E2831893/101LGR-RVR07619-WG4 LGR-RVR07619-WG4 14KT W S-7.25 F-VS2 Jan/21/2025 2.0" =
      some
        { lineNo := "101", orderNumber := "E2831893/101", vendorStyle := "LGR-RVR07619-WG4",
          kamaSKU := "LGR-RVR07619-WG4", metalKT := "14KT", metalColor := "W", size := "",
          shipDate := "21-01-2025", qty := "2.0", diaQuality := "S-7.25", itemType := "",
          engraving := "", desc := "", category := "RING", metalTol := "", diaTol := "",
          reqDate := "21-01-2025" } := by
  decide

/-! ## Claim C5 — size normalization -/

/-- C5, counterexample: the claim says a three-part all-digit token maps to
the last digit of part 1 and the first two digits of part 3, so that
`66.0.000` becomes `6.00`; the extractor's normalizer instead keeps the
first two dot-parts and float-formats them, producing `66.00`. -/
theorem C5_counterexample :
    extract_size_value "66.0.000".data = "66.00".data ∧ ("66.00" : String) ≠ "6.00" := by
  constructor
  · decide
  · decide

/-- C5 as amended: the extractor's size normalizer keeps the first two
dot-parts of a many-dotted token and float-formats them to two decimals
(so `66.0.000` maps to `66.00`, and malformed `a.b.c` maps to `a.b`, not
to itself); a numeric single-dot token is formatted to exactly two
decimals; a dotless token — numeric or not — is returned unchanged; a
non-numeric single-dot token is returned unchanged; nothing raises.  (The
claimed `6.00` behavior is that of `correct_double_decimal_number` in
src/app.py, which in turn leaves single-dot tokens such as `7.2`
unformatted.) -/
theorem C5_amended :
    (∀ v : List Char, v.contains '.' = false → extract_size_value v = v) ∧
    extract_size_value "66.0.000".data = "66.00".data ∧
    extract_size_value "7.25".data = "7.25".data ∧
    extract_size_value "7.2".data = "7.20".data ∧
    extract_size_value "5".data = "5".data ∧
    extract_size_value "a.b".data = "a.b".data ∧
    extract_size_value "a.b.c".data = "a.b".data ∧
    correct_double_decimal_number "66.0.000".data = "6.00".data ∧
    correct_double_decimal_number "7.2".data = "7.2".data := by
  refine ⟨?_, by decide, by decide, by decide, by decide, by decide, by decide, by decide, by decide⟩
  intro v hv
  have hm : ¬('.' ∈ v) := by simpa using hv
  simp [extract_size_value, hm]

/-- C5, witness for the amended dotless case. -/
theorem C5_amended_witness :
    "xyzw".data.contains '.' = false ∧ extract_size_value "xyzw".data = "xyzw".data :=
  ⟨by decide, C5_amended.1 "xyzw".data (by decide)⟩

/-! ## Claim C6 — date normalization -/

/-- C6, counterexample: the claim says date normalization accepts full month
names (`January/21/2025` yielding `21-01-2025`) and keeps unparseable
tokens verbatim without aborting.  In the extractor the ship-date shape
test `\w{3}/\d{2}/\d{4}` never matches a full month name, so the block's
ShipDate is left empty rather than `21-01-2025`; and the src/app.py
variant, which does try `%b` then `%B`, raises `ValueError` (modelled as
`none`) on a token both formats reject instead of keeping it verbatim. -/
theorem C6_counterexample :
    (parse_line_item "101 A1/101 BCD12 14KT W January/21/2025 3.0").map LineItem.shipDate =
        some "" ∧
    app_normalize_date "Foo/21/2025" = none := by
  constructor
  · decide
  · decide

/-- C6 as amended: the extractor's date normalization accepts only
abbreviated three-letter month names in `Mon/DD/YYYY` (`Jan/21/2025` maps
to `21-01-2025`, emitted as DD-MM-YYYY); a full month name is not
recognized as a date token at all and leaves ShipDate (and Qty) empty; a
token of the right shape whose parse fails is kept verbatim; in every case
the enclosing block still yields its record. -/
theorem C6_amended :
    (parse_line_item "101 A1/101 BCD12 14KT W Jan/21/2025 3.0").map
        (fun it => (it.shipDate, it.qty)) = some ("21-01-2025", "3.0") ∧
    (parse_line_item "101 A1/101 BCD12 14KT W January/21/2025 3.0").map
        (fun it => (it.shipDate, it.qty)) = some ("", "") ∧
    (parse_line_item "101 A1/101 BCD12 14KT W Xyz/21/2025 3.0").map
        (fun it => (it.shipDate, it.qty)) = some ("Xyz/21/2025", "3.0") ∧
    strptime_bdY "Jan/21/2025".data = some "21-01-2025" ∧
    strptime_bdY "January/21/2025".data = none := by
  refine ⟨by decide, by decide, by decide, by decide, by decide⟩

/-! ## Claim C8 — description-fallback category order -/

/-- C8, counterexample: on a block whose SKU and metal-suffix steps resolve
nothing and whose description is `WEDDING BAND EARRING`, the claimed
SKU-order fallback (BAND before EARRING) would give `BAND`, but the code
tests EARRING first and yields `EARRING`. -/
theorem C8_counterexample :
    descCategorySpecOrder (pyUpper "WEDDING BAND EARRING".data) = "BAND" ∧
    skuCategory (pyUpper "XYZ01".data) = "" ∧
    metalSuffixCategory "11111/101 XYZ01 14KT W".data = "" ∧
    (parse_line_item "101 11111/101 XYZ01 14KT W\nDesc. WEDDING BAND EARRING GM Min").map
        (fun it => (it.desc, it.category)) =
      some ("WEDDING BAND EARRING", "EARRING") := by
  refine ⟨by decide, by decide, by decide, by decide⟩

/-- C8 as amended: when the SKU and metal-suffix steps leave the category
empty and the description is nonempty, the keyword chain applied to the
uppercased description runs in the order EARRING, BAND (with WEDDING
BAND/MACHINE BAND), BRACELET (with BRACLET, BCG), PENDANT (with " PD",
18KP), NECKLACE (with NECKALCE, NACKLACE), RING (with " R "), CHAIN, SET —
first match wins, case-insensitive substring tests — and an unresolved
description leaves the category as the empty string, never an error. -/
theorem C8_amended :
    ∀ du : List Char, descCategory du = catChainLookup descChain du := by
  intro du
  simp [descCategory, catChainLookup, descChain, List.any_cons, List.any_nil, or_assoc]

/-! ## Claim C3 — block-start rule -/

/-- C3, counterexample: `is_block_start` accepts `1015 X`, which begins
with four digits, not exactly three (its docstring says "even if glued");
and the final extractor's segmenter treats `500 x` as a block boundary
although 500 is outside `[101, 400]`.  Both contradict the claimed
iff-rule. -/
theorem C3_counterexample :
    (is_block_start "1015 X").isSome = true ∧ blockStartClaim "1015 X" = false ∧
    lineStartsBlock "500 x" = true ∧ blockStartClaim "500 x" = false := by
  refine ⟨by decide, by decide, by decide, by decide⟩

/-- C3 as amended: in the app.py segmenter a line starts a new block iff
its first three characters are digits forming a value in `[101, 400]`,
regardless of what follows (a longer digit run still starts a block); the
final extractor's segmenter instead makes a block boundary of any line
whose first three characters are digits followed by whitespace, with no
range restriction at the boundary (the `[101, 999]` check is applied later
by `parse_line_item`). -/
theorem C3_amended :
    (∀ line : String, (is_block_start line).isSome = blockStartAmended line) ∧
    lineStartsBlock "500 x" = true := by
  constructor
  · intro line
    obtain ⟨l⟩ := line
    cases l with
    | nil => rfl
    | cons c0 t0 =>
        cases t0 with
        | nil => rfl
        | cons c1 t1 =>
            cases t1 with
            | nil => rfl
            | cons c2 r =>
                simp only [is_block_start, blockStartAmended]
                by_cases hd : (c0.isDigit && c1.isDigit && c2.isDigit) = true <;>
                  by_cases hr : (101 ≤ digitVal c0 * 100 + digitVal c1 * 10 + digitVal c2 &&
                      digitVal c0 * 100 + digitVal c1 * 10 + digitVal c2 ≤ 400) = true <;>
                  simp [hd, hr]
  · decide

/-! ## Claim C2 — block contexts and the ten-line window -/

/-- Unrolling the context-accumulation loop: it appends exactly the lines of
the `fuel`-bounded window up to (excluding) the next block-start line. -/
theorem ctxGo_takeWhile (n : Nat) :
    ∀ (ls : List String) (acc : String),
      ctxGo n ls acc =
        ((ls.take n).takeWhile (fun l => !lineStartsBlock l)).foldl
          (fun a l => a ++ "\n" ++ l) acc := by
  induction n with
  | zero => intro ls acc; cases ls <;> rfl
  | succ n ih =>
      intro ls acc
      cases ls with
      | nil => rfl
      | cons l ls' =>
          by_cases hb : lineStartsBlock l = true
          · simp [ctxGo, hb]
          · simp only [ctxGo, hb, Bool.false_eq_true, if_false, List.take_succ_cons,
              List.takeWhile_cons, Bool.not_false, if_true, List.foldl_cons]
            simp only [Bool.not_eq_true] at hb
            simp [hb, ih ls' (acc ++ "\n" ++ l)]

/-- C2, counterexample: with one block-start line followed by ten plain
lines, the emitted block's context stops after nine appended lines —
`x10` is in the input but in no emitted block — so the context is not
"all lines up to the next block-start line" and the concatenation of the
emitted blocks' lines does not reconstruct the input. -/
theorem C2_counterexample :
    blockContexts ["101 a b c", "x1", "x2", "x3", "x4", "x5", "x6", "x7", "x8", "x9", "x10"] =
        ["101 a b c\nx1\nx2\nx3\nx4\nx5\nx6\nx7\nx8\nx9"] ∧
    (["101 a b c", "x1", "x2", "x3", "x4", "x5", "x6", "x7", "x8", "x9", "x10"] : List String).getD
        10 "" = "x10" ∧
    hasSub "x10".data "101 a b c\nx1\nx2\nx3\nx4\nx5\nx6\nx7\nx8\nx9".data = false := by
  refine ⟨by decide, by decide, by decide⟩

/-- C2 as amended: the context built for the line at index `i` is that line
concatenated (with line breaks) with at most the next nine lines, stopping
early at the next block-start line; lines beyond that ten-line window — and
lines before the first block-start line — belong to no emitted block's
context. -/
theorem C2_amended :
    ∀ (lines : List String) (i : Nat),
      contextAt lines i =
        (((lines.drop (i + 1)).take 9).takeWhile (fun l => !lineStartsBlock l)).foldl
          (fun a l => a ++ "\n" ++ l) (lines.getD i "") :=
  fun lines i => ctxGo_takeWhile 9 (lines.drop (i + 1)) (lines.getD i "")

/-! ## Claim C7 — header extraction and merging -/

/-- C7, counterexample: header extraction takes the first match in the
document, so a text that does contain `Purchase From : ACME Vendor` and
`PO # : 98765` but has an earlier purchase-from and PO occurrence yields
the earlier values, not ACME/98765 — the claim's "for every document whose
text contains …" fails. -/
theorem C7_counterexample :
    hasSub "Purchase From : ACME Vendor".data
        "Purchase From : XYZQ Vendor\nPO # : 11111\nPurchase From : ACME Vendor\nPO # : 98765".data =
      true ∧
    hasSub "PO # : 98765".data
        "Purchase From : XYZQ Vendor\nPO # : 11111\nPurchase From : ACME Vendor\nPO # : 98765".data =
      true ∧
    (extract_header_info
        "Purchase From : XYZQ Vendor\nPO # : 11111\nPurchase From : ACME Vendor\nPO # : 98765").vendor =
      "XYZQ" ∧
    (extract_header_info
        "Purchase From : XYZQ Vendor\nPO # : 11111\nPurchase From : ACME Vendor\nPO # : 98765").poNumber =
      "11111" := by
  refine ⟨by decide, by decide, by decide, by decide⟩

/-- C7 as amended: for every document the extracted header fields are
merged identically into every line-item record; and a document whose
*first* `Purchase From :` match captures `ACME` and whose first `PO # :`
digits are `98765` — such as the Scenario D header itself — yields
Vendor `ACME` and PO Number `98765`. -/
theorem C7_amended :
    (∀ (text : String) (r : CombinedRecord), r ∈ extract_data_from_pdf_text text →
      r.header = extract_header_info text) ∧
    (extract_header_info "Purchase From : ACME Vendor\nPO # : 98765").vendor = "ACME" ∧
    (extract_header_info "Purchase From : ACME Vendor\nPO # : 98765").poNumber = "98765" := by
  refine ⟨?_, by decide, by decide⟩
  intro text r hr
  simp only [extract_data_from_pdf_text, List.mem_map] at hr
  obtain ⟨li, -, rfl⟩ := hr
  rfl

/-- C7, witness: the merge part of the amended claim applied to a concrete
document with one line item. -/
theorem C7_amended_witness :
    ((extract_data_from_pdf_text
          "Purchase From : ACME Vendor\nPO # : 98765\n101 A1/101 BCD12 14KT W").getD 0
        ⟨⟨"", "", "", "", ""⟩, noItem⟩).header =
      extract_header_info "Purchase From : ACME Vendor\nPO # : 98765\n101 A1/101 BCD12 14KT W" :=
  C7_amended.1 _ _ (by decide)

/-! ## Claim C9 — totality and field degradation -/

/-- C9, counterexample: `Feb/30/2025` matches the ship-date shape, the
internal `strptime` parse then fails (day out of range for the month), and
the field keeps the verbatim token — not the empty string the claim
requires for a field whose extraction hit an internal error. -/
theorem C9_counterexample :
    (parse_line_item "101 Q9/101 QRS77 18KT Y Feb/30/2025 4.0").map LineItem.shipDate =
      some "Feb/30/2025" := by
  decide

/-- C9 as amended: block extraction is total — every context yields a
record or a rejection, never an exception (the embedding is a total
function into `Option`) — and a field whose pattern search over the block
context finds nothing is left as the empty string while extraction of the
rest of the block continues; a date token that matches the shape but fails
to parse, however, keeps the verbatim token rather than the empty
string. -/
theorem C9_amended :
    ∀ (ctx : String) (item : LineItem), parse_line_item ctx = some item →
      (scanFirst matchItemTypeAt ctx.data = none → item.itemType = "") ∧
      (scanFirst matchEngravingAt ctx.data = none → item.engraving = "") ∧
      (scanFirst matchDescAt ctx.data = none → item.desc = "") ∧
      (scanFirst (matchTolAt "GM".data) ctx.data = none → item.metalTol = "") ∧
      (scanFirst (matchTolAt "Diam".data) ctx.data = none → item.diaTol = "") := by
  intro ctx item h
  unfold parse_line_item at h
  cases hm : matchLineNo (firstLine ctx.data) with
  | none => rw [hm] at h; cases h
  | some p =>
      obtain ⟨n, rest⟩ := p
      rw [hm] at h
      dsimp only at h
      split at h
      · cases h
      · split at h
        · cases h
        · split at h
          · cases h
          · split at h
            · cases h
            · rw [Option.some.injEq] at h
              subst h
              refine ⟨?_, ?_, ?_, ?_, ?_⟩ <;> intro hs <;> simp [buildItem, hs]

/-- C9, witness: a one-line block with none of the context patterns
present leaves ItemType empty. -/
theorem C9_amended_witness :
    scanFirst matchItemTypeAt "101 A1/101 BCD12 14KT W".data = none ∧
    ((parse_line_item "101 A1/101 BCD12 14KT W").getD noItem).itemType = "" :=
  ⟨by decide,
    (C9_amended "101 A1/101 BCD12 14KT W"
        ((parse_line_item "101 A1/101 BCD12 14KT W").getD noItem) (by decide)).1 (by decide)⟩

/-! ## Claim C10 — leftmost metal-suffix examination -/

theorem searchMetal_skip (pre tail : List Char) (h : noMetalMatchPre pre tail = true) :
    searchMetal (pre ++ tail) = searchMetal tail := by
  induction pre with
  | nil => rfl
  | cons c cs ih =>
      simp only [noMetalMatchPre, Bool.and_eq_true, Option.isNone_iff_eq_none] at h
      obtain ⟨h1, h2⟩ := h
      show searchMetal (c :: (cs ++ tail)) = searchMetal tail
      simp only [searchMetal]
      rw [h1]
      exact ih (by simp [noMetalMatchPre, h2])

/-- C10: the metal-suffix step examines only the leftmost
`(\d{2})K`-plus-letters occurrence of the line.  Whenever a standard karat
token `14KT ` sits at the leftmost matching position (no match starts
before it), the extracted groups are `14` and `T` — whatever follows later
in the line, such as a genuine `18KP` marker — the suffix `T` maps to no
category, the metal-suffix step assigns nothing, and classification falls
through to the description fallback when the SKU step also resolved
nothing and a description exists. -/
theorem C10_leftmost :
    ∀ pre post : List Char,
      noMetalMatchPre pre ("14KT ".data ++ post) = true →
      searchMetal (pre ++ ("14KT ".data ++ post)) = some (['1', '4'], ['T']) ∧
      metalSuffixCategory (pre ++ ("14KT ".data ++ post)) = "" ∧
      (∀ sku desc : List Char, skuCategory (pyUpper sku) = "" → desc.isEmpty = false →
        categoryOf sku (pre ++ ("14KT ".data ++ post)) desc = descCategory (pyUpper desc)) := by
  intro pre post h
  have hm : searchMetal (pre ++ ("14KT ".data ++ post)) = some (['1', '4'], ['T']) := by
    rw [searchMetal_skip pre _ h]
    show searchMetal ('1' :: '4' :: 'K' :: 'T' :: ' ' :: post) = _
    simp only [searchMetal]
    rw [show matchMetalAt ('1' :: '4' :: 'K' :: 'T' :: ' ' :: post) = some (['1', '4'], ['T'])
      from rfl]
  have hmc : metalSuffixCategory (pre ++ ("14KT ".data ++ post)) = "" := by
    simp only [metalSuffixCategory]
    rw [hm]
    decide
  refine ⟨hm, hmc, ?_⟩
  intro sku desc h1 h2
  have hmc2 : metalSuffixCategory (pre ++ '1' :: '4' :: 'K' :: 'T' :: ' ' :: post) = "" := hmc
  simp [categoryOf, h1, hmc2, h2]

/-- C10, witness: with nothing before the karat token and an `18KP` marker
after it, the metal-suffix step still assigns no category. -/
theorem C10_leftmost_witness :
    noMetalMatchPre [] ("14KT ".data ++ "X 18KP".data) = true ∧
    searchMetal ([] ++ ("14KT ".data ++ "X 18KP".data)) = some (['1', '4'], ['T']) ∧
    metalSuffixCategory ([] ++ ("14KT ".data ++ "X 18KP".data)) = "" ∧
    hasSub "18KP".data ([] ++ ("14KT ".data ++ "X 18KP".data)) = true :=
  ⟨by decide, (C10_leftmost [] "X 18KP".data (by decide)).1,
    (C10_leftmost [] "X 18KP".data (by decide)).2.1, by decide⟩

/-! ## Claim C4 — block rejection conditions -/

/-- C4: a candidate block yields no line item — silently, not as an error —
whenever the first line's text after the three-digit prefix splits into
fewer than three whitespace tokens, or the resolved Kama SKU is empty or
shorter than three characters, or no metal marker (`KT`, `PLAT`, `SILV`,
`STER`) occurs anywhere in the block's text (hence in none of its
tokens). -/
theorem C4_rejection :
    ∀ ctx : String,
      ((∃ n rest, matchLineNo (firstLine ctx.data) = some (n, rest) ∧
          (splitWs rest).length < 3) ∨
       (∃ n rest, matchLineNo (firstLine ctx.data) = some (n, rest) ∧
          ((resolveSkuFields (splitWs rest)).2.2.isEmpty ||
            decide ((resolveSkuFields (splitWs rest)).2.2.length < 3)) = true) ∨
       (hasSub "KT".data ctx.data = false ∧ hasSub "PLAT".data ctx.data = false ∧
        hasSub "SILV".data ctx.data = false ∧ hasSub "STER".data ctx.data = false)) →
      parse_line_item ctx = none := by
  intro ctx h
  unfold parse_line_item
  cases hm : matchLineNo (firstLine ctx.data) with
  | none => rfl
  | some p =>
      obtain ⟨n, rest⟩ := p
      dsimp only
      by_cases hrange : (decide (n < 101) || decide (999 < n)) = true
      · simp [hrange]
      · have transfer : ∀ pat : List Char, 2 ≤ pat.length → hasSub pat ctx.data = false →
            hasSub pat rest = false := by
          intro pat hl hfalse
          cases hq : hasSub pat rest with
          | false => rfl
          | true =>
              have h1 := hasSub_of_matchLineNo pat hl (firstLine ctx.data) n rest hm hq
              have h2 := hasSub_takeWhile pat (· != '\n') ctx.data h1
              rw [h2] at hfalse
              cases hfalse
        rcases h with ⟨n', rest', hm', hlt⟩ | ⟨n', rest', hm', hsku⟩ | hmark
        · rw [hm, Option.some.injEq, Prod.mk.injEq] at hm'
          obtain ⟨-, hrest⟩ := hm'
          subst hrest
          simp [hrange, hlt]
        · rw [hm, Option.some.injEq, Prod.mk.injEq] at hm'
          obtain ⟨-, hrest⟩ := hm'
          subst hrest
          by_cases hp : (splitWs rest).length < 3
          · simp [hrange, hp]
          · simp [hrange, hp, hsku]
        · have k1 := transfer "KT".data (by decide) hmark.1
          have k2 := transfer "PLAT".data (by decide) hmark.2.1
          have k3 := transfer "SILV".data (by decide) hmark.2.2.1
          have k4 := transfer "STER".data (by decide) hmark.2.2.2
          have hmm : hasMetalMarker rest = false := by
            simp [hasMetalMarker, k1, k2, k3, k4]
          by_cases hp : (splitWs rest).length < 3
          · simp [hrange, hp]
          · by_cases hs : ((resolveSkuFields (splitWs rest)).2.2.isEmpty ||
                decide ((resolveSkuFields (splitWs rest)).2.2.length < 3)) = true
            · simp [hrange, hp, hs]
            · simp [hrange, hp, hs, hmm]

/-- C4, witness: a marker-free block is rejected. -/
theorem C4_rejection_witness :
    (hasSub "KT".data "101 ABC DEF GHI".data = false ∧
     hasSub "PLAT".data "101 ABC DEF GHI".data = false ∧
     hasSub "SILV".data "101 ABC DEF GHI".data = false ∧
     hasSub "STER".data "101 ABC DEF GHI".data = false) ∧
    parse_line_item "101 ABC DEF GHI" = none :=
  ⟨⟨by decide, by decide, by decide, by decide⟩,
    C4_rejection "101 ABC DEF GHI"
      (Or.inr (Or.inr ⟨by decide, by decide, by decide, by decide⟩))⟩

end GB
